import Mathlib

/-!
Verification development for the AGRI_AI plant-disease retrieval-and-recommendation
engine.  The definitions below are a shallow embedding of `src/index.py` and
`src/backend/app/services/plant_disease_rag.py`.  Python floats are modelled by
rationals; the FAISS similarity search and the sentence-transformer encoder are
external libraries and are modelled by explicit parameters / executable models of
their documented behaviour.  All names follow the source where Lean permits.
-/

/-! ## Python string helpers -/

/-- Characters matched by Python `str.strip()` and by the regex class `\s`
(ASCII range): space, tab, newline, carriage return, vertical tab, form feed. -/
def isPySpace (c : Char) : Bool :=
  c = ' ' || c = '\t' || c = '\n' || c = '\r' || c = Char.ofNat 11 || c = Char.ofNat 12

/-- Python `str.strip()`: drop whitespace from both ends. -/
def pyStrip (s : String) : String :=
  String.mk (((s.toList.dropWhile isPySpace).reverse.dropWhile isPySpace).reverse)

/-- Python `str.rstrip(chars)` restricted to a single character. -/
def pyRstripChar (c : Char) (s : String) : String :=
  String.mk ((s.toList.reverse.dropWhile (· = c)).reverse)

/-- Substring test, Python `sub in s` (for non-empty `sub`). -/
def strContains (s sub : String) : Bool :=
  s.toList.tails.any (fun t => sub.toList.isPrefixOf t)

/-- Drop the first `n` characters of a string. -/
def dropChars (s : String) (n : Nat) : String :=
  String.mk (s.toList.drop n)

/-- Take the first `n` characters of a string. -/
def takeChars (s : String) (n : Nat) : String :=
  String.mk (s.toList.take n)

/-- Python `s.split(sep, 1)` on a list of characters: split at the first
occurrence of `sep`, returning the parts before and after it, or `none` when
`sep` does not occur. -/
def splitOnceAux (sep : List Char) : List Char → Option (List Char × List Char)
  | [] => none
  | c :: rest =>
    if sep.isPrefixOf (c :: rest) then some ([], (c :: rest).drop sep.length)
    else
      match splitOnceAux sep rest with
      | some (a, b) => some (c :: a, b)
      | none => none

/-- Python `s.split(sep, 1)` when `sep` occurs in `s`. -/
def splitOnce (s sep : String) : Option (String × String) :=
  (splitOnceAux sep.toList s.toList).map (fun p => (String.mk p.1, String.mk p.2))

/-- Python `str.lower()` (ASCII letters; the corpus names are ASCII). -/
def lowerStr (s : String) : String :=
  String.mk (s.toList.map Char.toLower)

/-- Python `str.startswith(p)`. -/
def strStartsWith (s p : String) : Bool :=
  p.toList.isPrefixOf s.toList

/-- Membership of a single character in a string. -/
def strHasChar (s : String) (c : Char) : Bool :=
  s.toList.contains c

/-- Maximal runs of characters not satisfying `p` (the words of a string after
splitting on `p` and discarding empty fields). -/
def wordsByAux (p : Char → Bool) : List Char → List Char → List (List Char)
  | [], acc => if acc = [] then [] else [acc.reverse]
  | c :: rest, acc =>
    if p c then
      if acc = [] then wordsByAux p rest [] else acc.reverse :: wordsByAux p rest []
    else wordsByAux p rest (c :: acc)

/-- Words of a character list with respect to a separator predicate. -/
def wordsBy (p : Char → Bool) (cs : List Char) : List (List Char) :=
  wordsByAux p cs []

/-! ## src/index.py : corpus indexer -/

/-- Source `CROP_ALIASES` table (src/index.py lines 14-17). -/
def CROP_ALIASES : List (String × String) :=
  [("pepper, bell", "Bell pepper"), ("corn (maize)", "Corn")]

/-- Source `DISEASE_DEFAULT_CROP` table (src/index.py lines 19-23). -/
def DISEASE_DEFAULT_CROP : List (String × String) :=
  [("brown spot", "Rice"), ("leaf smut", "Rice"), ("bacterial leaf blight", "Rice")]

/-- Source `_norm` (src/index.py lines 25-29): replace hyphens with spaces,
replace every run of characters in the class `[_(),/]` by a single space,
collapse whitespace runs and strip.  Replacing each class character by a space
individually and then collapsing whitespace runs yields the same string as
replacing whole runs first, so the model does the per-character replacement. -/
def norm (s : String) : String :=
  let s1 := s.toList.map (fun c => if c = '-' then ' ' else c)
  let s2 := s1.map
    (fun c => if c = '_' || c = '(' || c = ')' || c = ',' || c = '/' then ' ' else c)
  String.intercalate " " ((wordsBy isPySpace s2).map String.mk)

/-- Source `_canon_crop` (src/index.py lines 31-33). -/
def canon_crop (crop : String) : String :=
  match List.lookup (lowerStr crop) CROP_ALIASES with
  | some v => v
  | none => crop

/-- Separator character class `[_\s-]` used by the regexes of `parse_class`. -/
def isSepChar (c : Char) : Bool :=
  c = '_' || c = '-' || isPySpace c

/-- Guard of branch 2 of `parse_class`: Python
`re.match(r"^(resized_)?banana[_-]", nlow)` on the lower-cased name. -/
def bananaGuard (nlow : String) : Bool :=
  strStartsWith nlow "resized_banana_" || strStartsWith nlow "resized_banana-" ||
  strStartsWith nlow "banana_" || strStartsWith nlow "banana-"

/-- Extraction regex of branch 2: `re.match(r"^(?:resized_)?banana[_-](.+)$", name, re.I)`.
Returns group 1 when the match succeeds.  The optional `resized_` prefix is tried
first; because `.+` needs at least one character, a name that is exactly the
prefix yields no match (the non-resized alternative cannot apply at position 0
when the name starts with `resized`). -/
def bananaRest (name : String) : Option String :=
  let nlow := lowerStr name
  if strStartsWith nlow "resized_banana_" || strStartsWith nlow "resized_banana-" then
    if name.length > 15 then some (dropChars name 15) else none
  else if strStartsWith nlow "banana_" || strStartsWith nlow "banana-" then
    if name.length > 7 then some (dropChars name 7) else none
  else none

/-- Branch 3 helper: Python `re.sub(r"^[_\s-]*leaf[_\s-]*", "", rest, flags=re.I)`.
When the leading separators are not followed by `leaf` (case-insensitive) the
pattern does not match and `rest` is returned unchanged. -/
def stripLeafPrefix (rest : String) : String :=
  let t := rest.toList.dropWhile isSepChar
  if lowerStr (String.mk (t.take 4)) = "leaf" then
    String.mk ((t.drop 4).dropWhile isSepChar)
  else rest

/-- Guard of branch 4: Python `re.match(r"^(good|ill)[_\s-]+", nlow)`. -/
def goodIllGuard (nlow : String) : Bool :=
  let sepNext : Nat → Bool := fun k =>
    match nlow.toList.drop k with
    | [] => false
    | c :: _ => isSepChar c
  (strStartsWith nlow "good" && sepNext 4) || (strStartsWith nlow "ill" && sepNext 3)

/-- Extraction regex of branch 4: `re.match(r"^(good|ill)[_\s-]+(.+)$", name, re.I)`.
Returns (group 1 lower-cased, group 2).  The separator class is greedy but
backtracks so that `(.+)` can still match: when nothing follows the separator
run, the last separator character itself becomes group 2 (this needs at least
two separator characters). -/
def goodIllMatch (name : String) : Option (String × String) :=
  let cs := name.toList
  let nlow := lowerStr name
  let pfxLen : Option Nat :=
    if strStartsWith nlow "good" then some 4
    else if strStartsWith nlow "ill" then some 3
    else none
  match pfxLen with
  | none => none
  | some k =>
    let after := cs.drop k
    let seps := after.takeWhile isSepChar
    let restA := after.dropWhile isSepChar
    if seps = [] then none
    else if restA ≠ [] then some (lowerStr (String.mk (cs.take k)), String.mk restA)
    else if seps.length ≥ 2 then
      some (lowerStr (String.mk (cs.take k)), String.mk (seps.drop (seps.length - 1)))
    else none

/-- Result of `parse_class`: the Python function returns the 4-tuple
`(crop, condition, is_healthy, f"{crop} - {condition}")`. -/
structure ParsedClass where
  crop : String
  condition : String
  is_healthy : Bool
  class_name : String
deriving DecidableEq, Repr

/-- Source `parse_class` (src/index.py lines 35-86): normalize a class folder
name into (crop, condition, is_healthy, class_name), trying six patterns in
order with the first match winning. -/
def parse_class (folder_name : String) : ParsedClass :=
  let name := pyRstripChar '_' (pyStrip folder_name)
  let nlow := lowerStr name
  let cropCondition : String × String :=
    if strContains name "___" then
      -- 1) Standard: Crop___Condition
      match splitOnce name "___" with
      | some (a, b) => (canon_crop (norm a), norm b)
      | none => ("", "")  -- unreachable: the guard ensures the separator occurs
    else if bananaGuard nlow then
      -- 2) Banana special sets
      match bananaRest name with
      | some r => ("Banana", norm r)
      | none => ("Banana", "unknown")
    else if strStartsWith nlow "sugarcane" then
      -- 3) Sugarcane variants
      let rest := dropChars name 9
      let c := norm (stripLeafPrefix rest)
      ("Sugarcane", if c = "" then "unknown" else c)
    else if goodIllGuard nlow then
      -- 4) Good/Ill prefix
      match goodIllMatch name with
      | some (p, g2) =>
        (canon_crop (norm g2), if p = "good" then "healthy" else "diseased")
      | none => ("Unknown", "diseased")
    else if strHasChar name '_' then
      -- 5) Single-underscore fallback
      match splitOnce name "_" with
      | some (first, rest) => (canon_crop (norm first), norm rest)
      | none => ("", "")  -- unreachable: the guard ensures an underscore occurs
    else
      -- 6) Disease-only folders
      let condition := norm name
      ((List.lookup (lowerStr condition) DISEASE_DEFAULT_CROP).getD "Unknown", condition)
  let crop := canon_crop cropCondition.1
  let condition := cropCondition.2
  let is_healthy :=
    lowerStr condition = "healthy" || lowerStr condition = "leaf healthy" ||
    lowerStr condition = "good"
  { crop := crop, condition := condition, is_healthy := is_healthy,
    class_name := crop ++ " - " ++ condition }

/-! ## src/index.py : build_docs and build_faiss -/

/-- One metadata row produced by `build_docs` (a Python dict with these keys). -/
structure CatalogEntry where
  id : Nat
  class_name : String
  crop : String
  condition : String
  is_healthy : Bool
  image_path : String
  text : String
deriving DecidableEq, Repr

/-- Pathlib `Path(name).suffix`: the substring from the last dot, but only when
that dot is neither the first nor the last character of the name. -/
def pathSuffix (name : String) : String :=
  let cs := name.toList
  match (cs.reverse.findIdx? (fun c => c = '.')) with
  | none => ""
  | some rj =>
    let i := cs.length - 1 - rj
    if 0 < i ∧ i < cs.length - 1 then String.mk (cs.drop i) else ""

/-- Pathlib `class_dir.glob("*.*")` membership for a directory entry name: the
pattern matches exactly the names containing a dot.  Unlike the `glob` module,
`pathlib.Path.glob` does not special-case hidden files, so names beginning
with a dot (such as `.hidden.jpg`) are matched too (verified on CPython 3.11).
Note glob does not distinguish files from directories, and neither does
`build_docs`. -/
def globStarDotStar (name : String) : Bool :=
  strHasChar name '.'

/-- Filter applied by `build_docs` to each directory entry: it must be yielded
by `glob("*.*")` and its pathlib suffix, lower-cased, must be one of the three
image extensions (src/index.py lines 91-93). -/
def imageEligible (name : String) : Bool :=
  globStarDotStar name &&
  (lowerStr (pathSuffix name) = ".jpg" || lowerStr (pathSuffix name) = ".jpeg" ||
   lowerStr (pathSuffix name) = ".png")

/-- The descriptive-text template of `build_docs` (src/index.py lines 94-98). -/
def descriptiveText (crop condition class_name : String) (is_healthy : Bool) : String :=
  "Crop: " ++ crop ++ ". Condition: " ++ condition ++ ". " ++
  "This is a leaf image labeled \x27" ++ class_name ++ "\x27. " ++
  "Healthy: " ++ (if is_healthy then "yes" else "no") ++ "."

/-- Order used to model Python `sorted` over the class folder paths: paths are
compared as strings. -/
def dirOrder (a b : String × List String) : Prop := a.1 ≤ b.1

instance : DecidableRel dirOrder := fun a b => by
  unfold dirOrder; infer_instance

/-- Body of the inner loop of `build_docs` (src/index.py lines 91-108): append
one row per eligible entry, with `id` equal to the number of rows already
emitted (`"id": len(rows)`). -/
def docsStep (pc : ParsedClass) (dname : String)
    (rows : List CatalogEntry) (ename : String) : List CatalogEntry :=
  if imageEligible ename then
    rows ++ [{ id := rows.length,
               class_name := pc.class_name,
               crop := pc.crop,
               condition := pc.condition,
               is_healthy := pc.is_healthy,
               image_path := "Plant_Disease_Dataset/" ++ dname ++ "/" ++ ename,
               text := descriptiveText pc.crop pc.condition pc.class_name
                         pc.is_healthy }]
  else rows

/-- Processing of one class folder by `build_docs`. -/
def docsDir (rows : List CatalogEntry) (dir : String × List String) :
    List CatalogEntry :=
  dir.2.foldl (docsStep (parse_class dir.1) dir.1) rows

/-- Source `build_docs` (src/index.py lines 88-109).  The corpus directory is
modelled as a list of (class folder name, directory entry names); the function
walks the class folders in sorted order (Python `sorted`, a stable sort) and
emits one `CatalogEntry` per eligible entry. -/
def build_docs (dataset : List (String × List String)) : List CatalogEntry :=
  (dataset.insertionSort dirOrder).foldl docsDir []

/-- Embedding vectors are modelled as lists of rationals (floats as rationals). -/
abbrev Vec := List ℚ

/-- The sentence-transformer encoder family, modelled as an arbitrary function
of (model identifier, normalize_embeddings flag, text).  Both the indexer and
the retrieval service call into this one family. -/
abbrev EncFn := String → Bool → String → Vec

/-- The model identifier hard-coded at both index time (default argument of
`build_faiss`) and query time (`_load_embedding_model`). -/
def sbertModelName : String := "sentence-transformers/all-MiniLM-L6-v2"

/-- Batched encoding loop of `build_faiss` (src/index.py lines 122-125): the
texts are encoded in consecutive chunks of `batchSize` and the chunk results
are concatenated (np.vstack).  Chunks of a non-positive batch size are treated
as size 1; the Python code is only called with the default 256. -/
def encodeBatched (embedOne : String → Vec) (batchSize : Nat) :
    List String → List Vec
  | [] => []
  | t :: ts =>
    let chunk := t :: ts.take (batchSize - 1)
    let rest := ts.drop (batchSize - 1)
    chunk.map embedOne ++ encodeBatched embedOne batchSize rest
termination_by l => l.length
decreasing_by
  simp only [List.length_drop, List.length_cons]
  omega

/-- The persisted FAISS index: `faiss.IndexFlatIP(d)` stores the dimensionality
and the raw vectors in insertion order. -/
structure FaissIndex where
  d : Nat
  vectors : List Vec
deriving DecidableEq, Repr

/-- Source `build_faiss` (src/index.py lines 111-129): encode every row text
with `model.encode(..., normalize_embeddings=True)` for the given model name,
in batches, and add the stacked vectors to an inner-product index whose
dimensionality is the embedding width.  Python defaults: `model_name` is
`sbertModelName` and `batch_size` is 256. -/
def build_faiss (enc : EncFn) (rows : List CatalogEntry)
    (model_name : String) (batch_size : Nat) : FaissIndex :=
  let texts := rows.map (fun r => r.text)
  let embeddings := encodeBatched (fun t => enc model_name true t) batch_size texts
  { d := ((embeddings.head?).map List.length).getD 0, vectors := embeddings }

/-! ## Theorems about the corpus indexer -/

/-- Helper: `encodeBatched` concatenates the per-batch encodings, so batching
does not change the embedded sequence. -/
theorem encodeBatched_eq_map (f : String → Vec) (bs : Nat) (l : List String) :
    encodeBatched f bs l = l.map f := by
  have H : ∀ (n : Nat) (l : List String), l.length ≤ n →
      encodeBatched f bs l = l.map f := by
    intro n
    induction n with
    | zero =>
      intro l hl
      have : l = [] := List.eq_nil_of_length_eq_zero (Nat.le_zero.mp hl)
      subst this
      simp [encodeBatched]
    | succ n ih =>
      intro l hl
      match l with
      | [] => simp [encodeBatched]
      | t :: ts =>
        rw [encodeBatched]
        have hd : (ts.drop (bs - 1)).length ≤ n := by
          simp only [List.length_drop]
          simp only [List.length_cons] at hl
          omega
        rw [ih _ hd, ← List.map_append, List.cons_append, List.take_append_drop]
  exact H l.length l le_rfl

/-- Invariant carried through the folds of `build_docs`: ids are the row
offsets and every text was produced by the template. -/
def goodRows (rows : List CatalogEntry) : Prop :=
  rows.map (fun r => r.id) = List.range rows.length ∧
  ∀ r ∈ rows, r.text = descriptiveText r.crop r.condition r.class_name r.is_healthy

theorem goodRows_docsStep (pc : ParsedClass) (dn : String)
    (rows : List CatalogEntry) (en : String) (h : goodRows rows) :
    goodRows (docsStep pc dn rows en) := by
  unfold docsStep
  split
  · constructor
    · rw [List.map_append, h.1, List.length_append]
      simp [List.range_succ]
    · intro r hr
      rcases List.mem_append.1 hr with hr | hr
      · exact h.2 r hr
      · rcases List.mem_singleton.1 hr with rfl
        rfl
  · exact h

theorem goodRows_entries (pc : ParsedClass) (dn : String)
    (entries : List String) (rows : List CatalogEntry) (h : goodRows rows) :
    goodRows (entries.foldl (docsStep pc dn) rows) := by
  induction entries generalizing rows with
  | nil => exact h
  | cons e es ih => exact ih _ (goodRows_docsStep pc dn rows e h)

theorem goodRows_dirs (dirs : List (String × List String))
    (rows : List CatalogEntry) (h : goodRows rows) :
    goodRows (dirs.foldl docsDir rows) := by
  induction dirs generalizing rows with
  | nil => exact h
  | cons d ds ih => exact ih _ (goodRows_entries _ _ _ _ h)

theorem goodRows_build_docs (dataset : List (String × List String)) :
    goodRows (build_docs dataset) :=
  goodRows_dirs _ _ ⟨rfl, by intro r hr; cases hr⟩

theorem length_docsStep (pc : ParsedClass) (dn : String)
    (rows : List CatalogEntry) (en : String) :
    (docsStep pc dn rows en).length =
      rows.length + (if imageEligible en then 1 else 0) := by
  unfold docsStep
  split <;> simp

theorem length_entries_fold (pc : ParsedClass) (dn : String)
    (entries : List String) (rows : List CatalogEntry) :
    (entries.foldl (docsStep pc dn) rows).length =
      rows.length + (entries.filter imageEligible).length := by
  induction entries generalizing rows with
  | nil => simp
  | cons e es ih =>
    simp only [List.foldl_cons, ih, length_docsStep, List.filter_cons]
    by_cases h : imageEligible e = true
    · simp [h]
      omega
    · simp [h]

theorem length_dirs_fold (dirs : List (String × List String))
    (rows : List CatalogEntry) :
    (dirs.foldl docsDir rows).length =
      rows.length + (dirs.map (fun d => (d.2.filter imageEligible).length)).sum := by
  induction dirs generalizing rows with
  | nil => simp
  | cons d ds ih =>
    simp only [List.foldl_cons, ih, List.map_cons, List.sum_cons]
    unfold docsDir
    rw [length_entries_fold]
    omega

theorem length_build_docs (dataset : List (String × List String)) :
    (build_docs dataset).length =
      (dataset.map (fun d => (d.2.filter imageEligible).length)).sum := by
  unfold build_docs
  rw [length_dirs_fold]
  have hperm : (dataset.insertionSort dirOrder).Perm dataset :=
    List.perm_insertionSort dirOrder dataset
  have h2 := (hperm.map (fun d => (d.2.filter imageEligible).length)).sum_eq
  simp [h2]

/-- Claim C8: for every folder name, `parse_class` applies the six
normalization rules in the documented precedence order with the first match
winning (this order is the structure of the definition above), it is a pure
function and hence deterministic, `is_healthy` is true exactly when the
normalized condition, lower-cased, is "healthy", "leaf healthy" or "good",
and the six representative folder names yield their documented triples. -/
theorem parse_class_health_rule_and_examples :
    (∀ name : String, (parse_class name).is_healthy =
      (lowerStr (parse_class name).condition = "healthy" ||
       lowerStr (parse_class name).condition = "leaf healthy" ||
       lowerStr (parse_class name).condition = "good")) ∧
    parse_class "Tomato___Leaf_Mold" =
      { crop := "Tomato", condition := "Leaf Mold", is_healthy := false,
        class_name := "Tomato - Leaf Mold" } ∧
    parse_class "RESIZED_BANANA_Sigatoka" =
      { crop := "Banana", condition := "Sigatoka", is_healthy := false,
        class_name := "Banana - Sigatoka" } ∧
    parse_class "Sugarcane_Leaf_Rust" =
      { crop := "Sugarcane", condition := "Rust", is_healthy := false,
        class_name := "Sugarcane - Rust" } ∧
    parse_class "good_Cucumber" =
      { crop := "Cucumber", condition := "healthy", is_healthy := true,
        class_name := "Cucumber - healthy" } ∧
    parse_class "Ill_cucumber" =
      { crop := "cucumber", condition := "diseased", is_healthy := false,
        class_name := "cucumber - diseased" } ∧
    parse_class "Brown spot" =
      { crop := "Rice", condition := "Brown spot", is_healthy := false,
        class_name := "Rice - Brown spot" } :=
  ⟨fun _ => rfl, by decide, by decide, by decide, by decide, by decide, by decide⟩

/-- A name with no dot has an empty pathlib suffix. -/
theorem pathSuffix_eq_empty_of_no_dot (name : String)
    (h : strHasChar name '.' = false) : pathSuffix name = "" := by
  unfold pathSuffix
  have hnone : name.toList.reverse.findIdx? (fun c => c = '.') = none := by
    rw [List.findIdx?_eq_none_iff]
    intro x hx
    have hx2 : x ∈ name.toList := List.mem_reverse.1 hx
    have hdot : ('.' : Char) ∉ name.toList := by
      unfold strHasChar at h
      simpa using h
    cases hd : (decide (x = '.')) with
    | false => rfl
    | true =>
      rw [decide_eq_true_eq] at hd
      exact absurd (hd ▸ hx2) hdot
  simp only [hnone]

/-- Eligibility characterization: `build_docs` emits an entry for a directory
entry exactly when its pathlib suffix, lower-cased, is one of the three image
extensions (the glob conjunct is implied, since a non-empty suffix requires a
dot in the name). -/
theorem imageEligible_iff_suffix (name : String) :
    imageEligible name = true ↔
      (lowerStr (pathSuffix name) = ".jpg" ∨ lowerStr (pathSuffix name) = ".jpeg" ∨
       lowerStr (pathSuffix name) = ".png") := by
  unfold imageEligible globStarDotStar
  simp only [Bool.and_eq_true, Bool.or_eq_true, decide_eq_true_eq]
  constructor
  · rintro ⟨-, h⟩
    exact or_assoc.mp h
  · intro h
    refine ⟨?_, or_assoc.mpr h⟩
    cases hd : strHasChar name '.' with
    | true => rfl
    | false =>
      rw [pathSuffix_eq_empty_of_no_dot name hd] at h
      rcases h with h | h | h <;> exact absurd h (by decide)

/-- Helper: the vectors stored by `build_faiss` are exactly the row texts
embedded one by one, in metadata-row order. -/
theorem build_faiss_vectors (enc : EncFn) (rows : List CatalogEntry)
    (mn : String) (bs : Nat) :
    (build_faiss enc rows mn bs).vectors =
      rows.map (fun r => enc mn true r.text) := by
  unfold build_faiss
  simp only [encodeBatched_eq_map, List.map_map]
  rfl

/-- Claim C9: for every corpus build, the indexer emits one CatalogEntry per
directory entry whose extension (the pathlib suffix, lower-cased) is
.jpg/.jpeg/.png — the eligibility test is exactly that suffix condition; the
entry at row offset i has id equal to i in the metadata table, and the vectors
of `build_faiss` are exactly the row texts embedded in metadata-row order, so
the alignment extends to the vector index; and every emitted text equals the
fixed descriptive-text template applied to the fields of its own row. -/
theorem build_docs_build_faiss_alignment :
    (∀ name : String, imageEligible name = true ↔
      (lowerStr (pathSuffix name) = ".jpg" ∨ lowerStr (pathSuffix name) = ".jpeg" ∨
       lowerStr (pathSuffix name) = ".png")) ∧
    (∀ ds : List (String × List String),
      (build_docs ds).length =
        (ds.map (fun d => (d.2.filter imageEligible).length)).sum) ∧
    (∀ ds : List (String × List String),
      (build_docs ds).map (fun r => r.id) = List.range (build_docs ds).length) ∧
    (∀ ds : List (String × List String), ∀ r ∈ build_docs ds,
      r.text = descriptiveText r.crop r.condition r.class_name r.is_healthy) ∧
    (∀ (enc : EncFn) (rows : List CatalogEntry) (mn : String) (bs : Nat),
      (build_faiss enc rows mn bs).vectors =
        rows.map (fun r => enc mn true r.text)) :=
  ⟨imageEligible_iff_suffix,
   length_build_docs,
   fun ds => (goodRows_build_docs ds).1,
   fun ds => (goodRows_build_docs ds).2,
   build_faiss_vectors⟩

/-- Witness for claim C9 at a concrete corpus that includes a hidden image
file, which is indexed like any other. -/
theorem build_docs_build_faiss_alignment_witness :
    (imageEligible ".hidden.jpg" = true ↔
      (lowerStr (pathSuffix ".hidden.jpg") = ".jpg" ∨
       lowerStr (pathSuffix ".hidden.jpg") = ".jpeg" ∨
       lowerStr (pathSuffix ".hidden.jpg") = ".png")) ∧
    ({ id := 0, class_name := "Tomato - Leaf Mold", crop := "Tomato",
       condition := "Leaf Mold", is_healthy := false,
       image_path := "Plant_Disease_Dataset/Tomato___Leaf_Mold/.hidden.jpg",
       text := "Crop: Tomato. Condition: Leaf Mold. This is a leaf image labeled \x27Tomato - Leaf Mold\x27. Healthy: no." } :
        CatalogEntry).text =
      descriptiveText "Tomato" "Leaf Mold" "Tomato - Leaf Mold" false :=
  ⟨build_docs_build_faiss_alignment.1 ".hidden.jpg",
   build_docs_build_faiss_alignment.2.2.2.1
     [("Tomato___Leaf_Mold", [".hidden.jpg"])] _ (by decide)⟩

/-! ## src/backend/app/services/plant_disease_rag.py : retrieval service -/

/-- One metadata row as loaded by `_load_metadata` through `csv.DictReader`:
every column value is a string (in particular `is_healthy` is the string
rendering of the boolean, compared with `"true"` at query time). -/
structure MetaRow where
  id : String
  class_name : String
  crop : String
  condition : String
  is_healthy : String
  image_path : String
  text : String
deriving DecidableEq, Repr

/-- One retrieval result assembled by `search_similar_diseases`
(lines 201-211 of the service).  The score is a float, modelled as a rational
extended with a bottom element standing for the minus-infinity padding value
FAISS reports for absent neighbours. -/
structure SearchResult where
  score : WithBot ℚ
  crop : String
  condition : String
  is_healthy : Bool
  class_name : String
  image_path : String
  text : String
  metadata_id : Int
deriving DecidableEq, Repr

/-- Inner product of two equal-length vectors (`faiss.IndexFlatIP`). -/
def dot (a b : Vec) : ℚ :=
  ((a.zip b).map (fun p => p.1 * p.2)).sum

/-- Ranking relation of FAISS exact search results: higher score first and,
per the spec of the retrieval service, ties broken by ascending vector index
(first-indexed wins).  FAISS itself is an external library; this is its model. -/
def faissRank (a b : (WithBot ℚ) × Int) : Prop :=
  b.1 < a.1 ∨ (a.1 = b.1 ∧ a.2 ≤ b.2)

instance : DecidableRel faissRank := fun a b => by
  unfold faissRank; infer_instance

/-- Model of `index.search(q, top_k)` for a `faiss.IndexFlatIP` index holding
`ix.vectors`: score every stored vector by inner product with the query, order
by descending score (ties by ascending index), keep the first `k` and pad the
result out to exactly `k` slots with the sentinel pair (minus infinity, -1)
used by FAISS when the index holds fewer than `k` vectors.  A query of the
wrong dimensionality raises, modelled as `none`. -/
def faissSearch (ix : FaissIndex) (q : Vec) (k : Nat) :
    Option (List ((WithBot ℚ) × Int)) :=
  if q.length ≠ ix.d then none
  else
    let scored := ((List.range ix.vectors.length).zip ix.vectors).map
      (fun p => (((dot q p.2 : ℚ) : WithBot ℚ), (p.1 : Int)))
    let top := (scored.insertionSort faissRank).take k
    some (top ++ List.replicate (k - top.length) ((⊥ : WithBot ℚ), (-1 : Int)))

/-- Python list indexing `l[i]`: non-negative indices from the front, negative
indices from the back, `none` (an IndexError) when out of range. -/
def pyGet (l : List MetaRow) (i : Int) : Option MetaRow :=
  if 0 ≤ i then l.get? i.toNat
  else if 0 ≤ i + l.length then l.get? (i + l.length).toNat
  else none

/-- Projection of a metadata row into a search result
(lines 202-210 of the service). -/
def mkSearchResult (score : WithBot ℚ) (idx : Int) (row : MetaRow) : SearchResult :=
  { score := score,
    crop := row.crop,
    condition := row.condition,
    is_healthy := lowerStr row.is_healthy = "true",
    class_name := row.class_name,
    image_path := row.image_path,
    text := row.text,
    metadata_id := idx }

/-- Result-compilation loop of `search_similar_diseases` (lines 199-213): for
each returned (score, idx) pair, when `idx < len(metadata)` look the row up by
Python indexing and append the projection.  An IndexError inside the loop
escapes to the enclosing except-handler, modelled as `none`. -/
def compileResults (metadata : List MetaRow) :
    List ((WithBot ℚ) × Int) → Option (List SearchResult)
  | [] => some []
  | (s, i) :: rest =>
    if i < (metadata.length : Int) then
      match pyGet metadata i with
      | none => none
      | some row =>
        match compileResults metadata rest with
        | none => none
        | some rs => some (mkSearchResult s i row :: rs)
    else compileResults metadata rest

/-- The loaded embedding backend: either a SentenceTransformer for a given
model identifier, or a TF-IDF vectorizer loaded from a pickle (its transform
is an opaque function here). -/
inductive EmbedModel where
  | sbert (modelName : String) : EmbedModel
  | tfidfVectorizer (transform : String → Vec) : EmbedModel

/-- Source `_load_embedding_model` (lines 148-167): for a TF-IDF index load
the pickled vectorizer (absent file leaves the model unset), otherwise load
`SentenceTransformer("sentence-transformers/all-MiniLM-L6-v2")`. -/
def load_embedding_model (index_type : String)
    (vectorizerFile : Option (String → Vec)) : Option EmbedModel :=
  if index_type = "tfidf" then vectorizerFile.map EmbedModel.tfidfVectorizer
  else some (EmbedModel.sbert sbertModelName)

/-- Query-embedding step of `search_similar_diseases` (lines 186-196).  For a
TF-IDF index the vectorizer transform is followed by sklearn normalize
(`sknorm`, an opaque parameter); otherwise `model.encode([query],
normalize_embeddings=True, convert_to_numpy=True)` runs the sentence
transformer.  Calling the wrong method on the loaded object raises an
AttributeError, modelled as `none`. -/
def computeQueryEmbedding (enc : EncFn) (sknorm : Vec → Vec)
    (index_type : String) (m : EmbedModel) (query : String) : Option Vec :=
  if index_type = "tfidf" then
    match m with
    | EmbedModel.tfidfVectorizer transform => some (sknorm (transform query))
    | EmbedModel.sbert _ => none
  else
    match m with
    | EmbedModel.sbert modelName => some (enc modelName true query)
    | EmbedModel.tfidfVectorizer _ => none

/-- In-memory state of a `PlantDiseaseRAG` instance after construction. -/
structure RAGState where
  index : Option FaissIndex
  metadata : List MetaRow
  model : Option EmbedModel
  index_type : String

/-- Source `search_similar_diseases` (lines 169-219): refuse with `[]` when
index, embedding model or metadata are missing; embed the query, run the FAISS
search, and compile the results; any exception inside the try block yields
`[]`. -/
def search_similar_diseases (enc : EncFn) (sknorm : Vec → Vec)
    (st : RAGState) (query : String) (top_k : Nat) : List SearchResult :=
  match st.index, st.model with
  | some ix, some m =>
    if st.metadata.isEmpty then []
    else
      match computeQueryEmbedding enc sknorm st.index_type m query with
      | none => []
      | some qe =>
        match faissSearch ix qe top_k with
        | none => []
        | some pairs => (compileResults st.metadata pairs).getD []
  | _, _ => []

/-- Source `is_service_ready` (lines 691-695): index loaded, model loaded and
metadata non-empty. -/
def is_service_ready (st : RAGState) : Bool :=
  st.index.isSome && st.model.isSome && decide (0 < st.metadata.length)

/-! ## Theorems about the retrieval service -/

instance : IsTotal ((WithBot ℚ) × Int) faissRank := by
  constructor
  intro a b
  unfold faissRank
  rcases lt_trichotomy a.1 b.1 with h | h | h
  · exact Or.inr (Or.inl h)
  · rcases le_total a.2 b.2 with h2 | h2
    · exact Or.inl (Or.inr ⟨h, h2⟩)
    · exact Or.inr (Or.inr ⟨h.symm, h2⟩)
  · exact Or.inl (Or.inl h)

instance : IsTrans ((WithBot ℚ) × Int) faissRank := by
  constructor
  intro a b c hab hbc
  unfold faissRank at *
  rcases hab with h1 | ⟨h1, h1i⟩
  · rcases hbc with h2 | ⟨h2, h2i⟩
    · exact Or.inl (h2.trans h1)
    · exact Or.inl (by rw [← h2]; exact h1)
  · rcases hbc with h2 | ⟨h2, h2i⟩
    · exact Or.inl (by rw [h1]; exact h2)
    · exact Or.inr ⟨h1.trans h2, h1i.trans h2i⟩

/-- The filterMap equivalent of the result-compilation loop on success. -/
def compileOne (meta : List MetaRow) (p : (WithBot ℚ) × Int) : Option SearchResult :=
  if p.2 < (meta.length : Int) then (pyGet meta p.2).map (mkSearchResult p.1 p.2)
  else none

theorem compileResults_eq_filterMap (meta : List MetaRow) :
    ∀ pairs rs, compileResults meta pairs = some rs →
      rs = pairs.filterMap (compileOne meta) := by
  intro pairs
  induction pairs with
  | nil =>
    intro rs h
    simp only [compileResults, Option.some.injEq] at h
    simp [← h]
  | cons p rest ih =>
    intro rs h
    obtain ⟨s, i⟩ := p
    simp only [compileResults] at h
    by_cases hg : (i < (meta.length : Int))
    · rw [if_pos hg] at h
      cases hpy : pyGet meta i with
      | none => rw [hpy] at h; cases h
      | some row =>
        rw [hpy] at h
        cases hrec : compileResults meta rest with
        | none => rw [hrec] at h; cases h
        | some rs' =>
          rw [hrec] at h
          have hf : compileOne meta (s, i) = some (mkSearchResult s i row) := by
            simp [compileOne, hg, hpy]
          cases h
          rw [List.filterMap_cons, hf, ih rs' hrec]
    · rw [if_neg hg] at h
      have hf : compileOne meta (s, i) = none := by
        simp [compileOne, hg]
      rw [List.filterMap_cons, hf]
      exact ih rs h

theorem compileResults_append (meta : List MetaRow) (l1 l2 : List ((WithBot ℚ) × Int)) :
    compileResults meta (l1 ++ l2) =
      match compileResults meta l1, compileResults meta l2 with
      | some a, some b => some (a ++ b)
      | _, _ => none := by
  induction l1 with
  | nil =>
    cases h : compileResults meta l2 with
    | none => simp [compileResults, h]
    | some b => simp [compileResults, h]
  | cons p rest ih =>
    obtain ⟨s, i⟩ := p
    simp only [List.cons_append, compileResults]
    by_cases hg : (i < (meta.length : Int))
    · rw [if_pos hg, if_pos hg]
      cases hpy : pyGet meta i with
      | none => rfl
      | some row =>
        have happ : rest.append l2 = rest ++ l2 := rfl
        rw [happ, ih]
        cases h1 : compileResults meta rest with
        | none => rfl
        | some a =>
          cases h2 : compileResults meta l2 with
          | none => rfl
          | some b => rfl
    · rw [if_neg hg, if_neg hg]
      exact ih

theorem pyGet_nonneg (meta : List MetaRow) (i : Int) (h0 : 0 ≤ i)
    (hlt : i < (meta.length : Int)) : ∃ row, pyGet meta i = some row := by
  unfold pyGet
  rw [if_pos h0]
  have hn : i.toNat < meta.length := by omega
  rcases List.getElem?_eq_some.2 ⟨hn, rfl⟩ with h
  exact ⟨meta[i.toNat], by rw [List.get?_eq_getElem?]; exact h⟩

theorem pyGet_neg_one (meta : List MetaRow) (hm : meta ≠ []) :
    pyGet meta (-1) = meta.getLast? := by
  unfold pyGet
  have hlen : 0 < meta.length := List.length_pos.2 hm
  rw [if_neg (by omega), if_pos (by omega)]
  rw [List.getLast?_eq_getElem?, List.get?_eq_getElem?]
  congr 1
  omega

theorem compileResults_isSome (meta : List MetaRow) (hm : meta ≠ []) :
    ∀ pairs, (∀ p ∈ pairs, 0 ≤ p.2 ∨ p.2 = -1) →
      ∃ rs, compileResults meta pairs = some rs := by
  intro pairs
  induction pairs with
  | nil => exact fun _ => ⟨[], rfl⟩
  | cons p rest ih =>
    intro hall
    obtain ⟨s, i⟩ := p
    obtain ⟨rs', hrs'⟩ := ih (fun p hp => hall p (List.mem_cons_of_mem _ hp))
    simp only [compileResults]
    by_cases hg : (i < (meta.length : Int))
    · rw [if_pos hg]
      have hpy : ∃ row, pyGet meta i = some row := by
        rcases hall (s, i) (List.mem_cons_self _ _) with h0 | hneg
        · exact pyGet_nonneg meta i h0 hg
        · subst hneg
          have hn : meta.length - 1 < meta.length := by
            have := List.length_pos.2 hm
            omega
          exact ⟨meta[meta.length - 1], by
            rw [pyGet_neg_one meta hm, List.getLast?_eq_getElem?]
            exact List.getElem?_eq_some.2 ⟨hn, rfl⟩⟩
      obtain ⟨row, hrow⟩ := hpy
      rw [hrow, hrs']
      exact ⟨_, rfl⟩
    · rw [if_neg hg]
      exact ⟨rs', hrs'⟩

theorem compileResults_replicate_pad (meta : List MetaRow) (lastRow : MetaRow)
    (hm : meta.getLast? = some lastRow) (cnt : Nat) :
    compileResults meta (List.replicate cnt ((⊥ : WithBot ℚ), (-1 : Int))) =
      some (List.replicate cnt (mkSearchResult ⊥ (-1) lastRow)) := by
  have hne : meta ≠ [] := by
    intro h
    rw [h] at hm
    cases hm
  have hlen : 0 < meta.length := List.length_pos.2 hne
  induction cnt with
  | zero => rfl
  | succ n ih =>
    rw [List.replicate_succ, List.replicate_succ]
    simp only [compileResults]
    rw [if_pos (by omega), pyGet_neg_one meta hne, hm, ih]

theorem compileOne_proj (meta : List MetaRow) (p : (WithBot ℚ) × Int)
    (r : SearchResult) (h : compileOne meta p = some r) :
    r.score = p.1 ∧ r.metadata_id = p.2 := by
  unfold compileOne at h
  by_cases hg : (p.2 < (meta.length : Int))
  · rw [if_pos hg] at h
    cases hpy : pyGet meta p.2 with
    | none => rw [hpy] at h; cases h
    | some row =>
      rw [hpy] at h
      cases h
      exact ⟨rfl, rfl⟩
  · rw [if_neg hg] at h
    cases h

theorem pairwise_filterMap_compileOne (meta : List MetaRow)
    (pairs : List ((WithBot ℚ) × Int)) (hp : List.Pairwise faissRank pairs) :
    List.Pairwise
      (fun a b => faissRank (a.score, a.metadata_id) (b.score, b.metadata_id))
      (pairs.filterMap (compileOne meta)) := by
  induction pairs with
  | nil => simp
  | cons p rest ih =>
    obtain ⟨hhead, htail⟩ := List.pairwise_cons.1 hp
    rw [List.filterMap_cons]
    cases hfp : compileOne meta p with
    | none => exact ih htail
    | some r =>
      refine List.Pairwise.cons ?_ (ih htail)
      intro b hb
      obtain ⟨p', hp', hfp'⟩ := List.mem_filterMap.1 hb
      obtain ⟨hs, hi⟩ := compileOne_proj meta p r hfp
      obtain ⟨hs', hi'⟩ := compileOne_proj meta p' b hfp'
      rw [hs, hi, hs', hi']
      simpa using hhead p' hp'

/-- Structure of the FAISS result pairs: length exactly k, sorted by
`faissRank`, and every reported index is a valid stored index or -1. -/
theorem faissSearch_pairs_props (ix : FaissIndex) (qe : Vec) (k : Nat)
    (pairs : List ((WithBot ℚ) × Int))
    (h : faissSearch ix qe k = some pairs) :
    pairs.length = k ∧ List.Pairwise faissRank pairs ∧
      (∀ p ∈ pairs, 0 ≤ p.2 ∨ p.2 = -1) := by
  unfold faissSearch at h
  by_cases hd : qe.length ≠ ix.d
  · rw [if_pos hd] at h
    cases h
  · rw [if_neg hd] at h
    cases h
    set scored := ((List.range ix.vectors.length).zip ix.vectors).map
      (fun p => (((dot qe p.2 : ℚ) : WithBot ℚ), (p.1 : Int))) with hscored
    set top := (scored.insertionSort faissRank).take k with htop
    have hmemScored : ∀ p ∈ scored, (∃ x : ℚ, p.1 = (x : WithBot ℚ)) ∧ 0 ≤ p.2 := by
      intro p hp
      rw [hscored] at hp
      obtain ⟨a, _, ha⟩ := List.mem_map.1 hp
      rw [← ha]
      exact ⟨⟨dot qe a.2, rfl⟩, Int.natCast_nonneg a.1⟩
    have hmemTop : ∀ p ∈ top, (∃ x : ℚ, p.1 = (x : WithBot ℚ)) ∧ 0 ≤ p.2 := by
      intro p hp
      have h1 : p ∈ scored.insertionSort faissRank :=
        (List.take_sublist k _).mem hp
      exact hmemScored p ((List.perm_insertionSort faissRank scored).mem_iff.1 h1)
    have hlenTop : top.length ≤ k := by
      rw [htop, List.length_take]
      exact min_le_left _ _
    refine ⟨?_, ?_, ?_⟩
    · rw [List.length_append, List.length_replicate]
      omega
    · rw [List.pairwise_append]
      refine ⟨?_, ?_, ?_⟩
      · exact List.Pairwise.sublist (List.take_sublist k _)
          (List.sorted_insertionSort faissRank scored)
      · exact List.pairwise_replicate.2
          (Or.inr (Or.inr ⟨rfl, le_refl _⟩))
      · intro a ha b hb
        have hbp := List.eq_of_mem_replicate hb
        obtain ⟨⟨x, hx⟩, _⟩ := hmemTop a ha
        rw [hbp]
        exact Or.inl (by rw [hx]; exact WithBot.bot_lt_coe x)
    · intro p hp
      rcases List.mem_append.1 hp with hp | hp
      · exact Or.inl (hmemTop p hp).2
      · rw [List.eq_of_mem_replicate hp]
        exact Or.inr rfl

/-- Case analysis of `search_similar_diseases`: the call either returns `[]`
or successfully compiles a FAISS pair list of length exactly `top_k`. -/
theorem search_shape (enc : EncFn) (sknorm : Vec → Vec) (st : RAGState)
    (q : String) (k : Nat) :
    search_similar_diseases enc sknorm st q k = [] ∨
    ∃ pairs rs, pairs.length = k ∧ List.Pairwise faissRank pairs ∧
      compileResults st.metadata pairs = some rs ∧
      search_similar_diseases enc sknorm st q k = rs := by
  rcases hix : st.index with _ | ix
  · exact Or.inl (by simp [search_similar_diseases, hix])
  rcases hom : st.model with _ | m
  · exact Or.inl (by simp [search_similar_diseases, hix, hom])
  by_cases hme : st.metadata.isEmpty
  · exact Or.inl (by simp [search_similar_diseases, hix, hom, hme])
  rcases hqe : computeQueryEmbedding enc sknorm st.index_type m q with _ | qe
  · exact Or.inl (by simp [search_similar_diseases, hix, hom, hme, hqe])
  rcases hfs : faissSearch ix qe k with _ | pairs
  · exact Or.inl (by simp [search_similar_diseases, hix, hom, hme, hqe, hfs])
  rcases hcr : compileResults st.metadata pairs with _ | rs
  · exact Or.inl (by simp [search_similar_diseases, hix, hom, hme, hqe, hfs, hcr])
  · right
    obtain ⟨hlen, hpw, _⟩ := faissSearch_pairs_props ix qe k pairs hfs
    exact ⟨pairs, rs, hlen, hpw, hcr,
      by simp [search_similar_diseases, hix, hom, hme, hqe, hfs, hcr]⟩

/-- Claim C5: for every query string and every top_k, the search returns at
most top_k results, ordered descending by score with equal scores broken by
ascending original index (first-indexed wins, the `faissRank` order on the
(score, metadata_id) projections), and it returns the empty list rather than
raising whenever the index, the metadata or the embedding backend is
unavailable. -/
theorem search_top_k_bound_and_ordering :
    ∀ (enc : EncFn) (sknorm : Vec → Vec) (st : RAGState) (q : String) (k : Nat),
      (search_similar_diseases enc sknorm st q k).length ≤ k ∧
      List.Pairwise
        (fun a b => faissRank (a.score, a.metadata_id) (b.score, b.metadata_id))
        (search_similar_diseases enc sknorm st q k) ∧
      (is_service_ready st = false → search_similar_diseases enc sknorm st q k = []) := by
  intro enc sknorm st q k
  refine ⟨?_, ?_, ?_⟩
  · rcases search_shape enc sknorm st q k with h | ⟨pairs, rs, hlen, _, hcr, hres⟩
    · rw [h]
      simp
    · rw [hres, compileResults_eq_filterMap st.metadata pairs rs hcr]
      calc (pairs.filterMap (compileOne st.metadata)).length
          ≤ pairs.length := List.length_filterMap_le _ _
        _ = k := hlen
  · rcases search_shape enc sknorm st q k with h | ⟨pairs, rs, _, hpw, hcr, hres⟩
    · rw [h]
      exact List.Pairwise.nil
    · rw [hres, compileResults_eq_filterMap st.metadata pairs rs hcr]
      exact pairwise_filterMap_compileOne st.metadata pairs hpw
  · intro hnr
    unfold is_service_ready at hnr
    rcases hix : st.index with _ | ix
    · simp [search_similar_diseases, hix]
    rcases hom : st.model with _ | m
    · simp [search_similar_diseases, hix, hom]
    have hlen0 : st.metadata.length = 0 := by
      rw [hix, hom] at hnr
      simp only [Option.isSome_some, Bool.true_and] at hnr
      by_contra hne0
      rw [decide_eq_true (by omega : 0 < st.metadata.length)] at hnr
      cases hnr
    have hme : st.metadata.isEmpty = true := by
      cases hmd : st.metadata with
      | nil => rfl
      | cons a l => rw [hmd] at hlen0; simp at hlen0
    simp [search_similar_diseases, hix, hom, hme]

/-- Witness for claim C5: a not-ready service returns the empty list, and the
bound and ordering conjuncts hold there as well. -/
theorem search_top_k_bound_and_ordering_witness :
    search_similar_diseases (fun _ _ _ => ([] : Vec)) (fun v => v)
      { index := none, metadata := [], model := none, index_type := "sbert" }
      "yellow spots" 3 = [] :=
  (search_top_k_bound_and_ordering (fun _ _ _ => ([] : Vec)) (fun v => v)
    { index := none, metadata := [], model := none, index_type := "sbert" }
    "yellow spots" 3).2.2 rfl

/-- Claim C10: the bound check `idx < len(self.metadata)` admits negative
indices, so when the FAISS search pads its result with the sentinel index -1
(which happens whenever top_k exceeds the number of stored vectors), the
padded slot is not omitted: Python negative indexing resolves -1 to the last
metadata row, and the returned list ends with a projection of the final
catalog entry paired with the sentinel score. -/
theorem search_sentinel_index_maps_to_last_row :
    ∀ (enc : EncFn) (sknorm : Vec → Vec) (st : RAGState) (q : String) (k : Nat)
      (ix : FaissIndex) (m : EmbedModel) (qe : Vec) (lastRow : MetaRow),
      st.index = some ix →
      st.model = some m →
      st.metadata.getLast? = some lastRow →
      computeQueryEmbedding enc sknorm st.index_type m q = some qe →
      qe.length = ix.d →
      ix.vectors.length < k →
      (search_similar_diseases enc sknorm st q k).getLast? =
        some (mkSearchResult ⊥ (-1) lastRow) := by
  intro enc sknorm st q k ix m qe lastRow hix hom hlast hqe hd hk
  have hne : st.metadata ≠ [] := by
    intro h
    rw [h] at hlast
    cases hlast
  have hmeF : st.metadata.isEmpty = false := by
    cases hmd : st.metadata with
    | nil => exact absurd hmd hne
    | cons a l => rfl
  set scored := ((List.range ix.vectors.length).zip ix.vectors).map
      (fun p => (((dot qe p.2 : ℚ) : WithBot ℚ), (p.1 : Int))) with hscored
  set top := (scored.insertionSort faissRank).take k with htopdef
  have hfs : faissSearch ix qe k =
      some (top ++ List.replicate (k - top.length) ((⊥ : WithBot ℚ), (-1 : Int))) := by
    unfold faissSearch
    rw [if_neg (by simp [hd])]
  have hcnt : 0 < k - top.length := by
    have h1 : scored.length = ix.vectors.length := by
      rw [hscored]
      simp [List.length_zip]
    have h2 : (scored.insertionSort faissRank).length = scored.length :=
      (List.perm_insertionSort faissRank scored).length_eq
    rw [htopdef, List.length_take, h2, h1, Nat.min_eq_right (le_of_lt hk)]
    omega
  obtain ⟨_, _, hall⟩ := faissSearch_pairs_props ix qe k _ hfs
  have htopmem : ∀ p ∈ top, 0 ≤ p.2 ∨ p.2 = -1 :=
    fun p hp => hall p (List.mem_append_left _ hp)
  obtain ⟨rs1, hrs1⟩ := compileResults_isSome st.metadata hne top htopmem
  have hrep := compileResults_replicate_pad st.metadata lastRow hlast (k - top.length)
  have hcomp : compileResults st.metadata
      (top ++ List.replicate (k - top.length) ((⊥ : WithBot ℚ), (-1 : Int))) =
      some (rs1 ++ List.replicate (k - top.length) (mkSearchResult ⊥ (-1) lastRow)) := by
    rw [compileResults_append, hrs1, hrep]
  have hres : search_similar_diseases enc sknorm st q k =
      rs1 ++ List.replicate (k - top.length) (mkSearchResult ⊥ (-1) lastRow) := by
    unfold search_similar_diseases
    simp only [hix, hom, hmeF, hqe, hfs, hcomp]
    rfl
  rw [hres, List.getLast?_append, List.getLast?_replicate, if_neg (by omega)]
  rfl

/-- Witness for claim C10: one stored vector, one metadata row, top_k = 2; the
search result ends with the last metadata row paired with the sentinel. -/
theorem search_sentinel_index_witness :
    (search_similar_diseases (fun _ _ _ => [(1 : ℚ)]) (fun v => v)
      { index := some { d := 1, vectors := [[(2 : ℚ)]] },
        metadata := [{ id := "0", class_name := "Rice - Brown spot",
                       crop := "Rice", condition := "Brown spot",
                       is_healthy := "False", image_path := "img.jpg",
                       text := "t" }],
        model := some (EmbedModel.sbert sbertModelName),
        index_type := "sbert" } "q" 2).getLast? =
      some (mkSearchResult ⊥ (-1)
        { id := "0", class_name := "Rice - Brown spot", crop := "Rice",
          condition := "Brown spot", is_healthy := "False",
          image_path := "img.jpg", text := "t" }) :=
  search_sentinel_index_maps_to_last_row (fun _ _ _ => [(1 : ℚ)]) (fun v => v)
    _ "q" 2 { d := 1, vectors := [[(2 : ℚ)]] } (EmbedModel.sbert sbertModelName)
    [(1 : ℚ)] _ rfl rfl rfl rfl rfl (by decide)

/-- Claim C1: the query-time embedding function of the sentence-transformer
path is the index-time embedding function: `search_similar_diseases` encodes
the query by `enc "sentence-transformers/all-MiniLM-L6-v2" true`, exactly the
call made by `build_faiss` (with its default model name) on every stored
descriptive text, so re-embedding the stored text of row i reproduces the
vector at index position i. -/
theorem query_embedding_matches_index_embedding :
    (∀ (enc : EncFn) (sknorm : Vec → Vec) (index_type : String)
       (vf : Option (String → Vec)) (q : String) (m : EmbedModel),
      index_type ≠ "tfidf" →
      load_embedding_model index_type vf = some m →
      computeQueryEmbedding enc sknorm index_type m q =
        some (enc sbertModelName true q)) ∧
    (∀ (enc : EncFn) (rows : List CatalogEntry) (i : Nat),
      (build_faiss enc rows sbertModelName 256).vectors.get? i =
        (rows.get? i).map (fun r => enc sbertModelName true r.text)) := by
  constructor
  · intro enc sknorm it vf q m hne hload
    unfold load_embedding_model at hload
    rw [if_neg hne] at hload
    cases hload
    unfold computeQueryEmbedding
    rw [if_neg hne]
  · intro enc rows i
    rw [build_faiss_vectors]
    simp [List.get?_eq_getElem?]

/-- Witness for claim C1 at a concrete encoder, index type and query. -/
theorem query_embedding_matches_index_embedding_witness :
    computeQueryEmbedding (fun _ _ t => [(t.length : ℚ)]) (fun v => v) "sbert"
        (EmbedModel.sbert sbertModelName) "leaf spots" =
      some ((fun _ _ t => [(t.length : ℚ)]) sbertModelName true "leaf spots") :=
  query_embedding_matches_index_embedding.1 (fun _ _ t => [(t.length : ℚ)])
    (fun v => v) "sbert" none "leaf spots" (EmbedModel.sbert sbertModelName)
    (by decide) rfl

/-- A state whose loaded index holds two vectors while the metadata table has
a single row: the artifacts are mismatched. -/
def mismatchedState : RAGState :=
  { index := some { d := 0, vectors := [[], []] },
    metadata := [{ id := "0", class_name := "Tomato - Leaf Mold",
                   crop := "Tomato", condition := "Leaf Mold",
                   is_healthy := "False", image_path := "img0.jpg",
                   text := "t0" }],
    model := some (EmbedModel.sbert sbertModelName),
    index_type := "sbert" }

/-- Claim C2 counterexample: `is_service_ready` does not compare the metadata
row count with the index vector count; on a state whose counts differ it
reports ready, and the service still serves a non-empty search result instead
of refusing. -/
theorem is_service_ready_mismatch_counterexample :
    is_service_ready mismatchedState = true ∧
    mismatchedState.metadata.length ≠
      (match mismatchedState.index with
       | some ix => ix.vectors.length
       | none => 0) ∧
    search_similar_diseases (fun _ _ _ => ([] : Vec)) (fun v => v)
      mismatchedState "any query" 2 ≠ [] := by
  refine ⟨rfl, by decide, ?_⟩
  decide

/-- Claim C2 (amended): the readiness check is true if and only if the index
is loaded, the embedding backend is loaded and the metadata is non-empty; it
does not require the metadata row count to equal the index vector count, and
a mismatched service reports ready and serves results (see the
counterexample). -/
theorem is_service_ready_characterization :
    ∀ st : RAGState, is_service_ready st = true ↔
      (st.index.isSome = true ∧ st.model.isSome = true ∧ st.metadata ≠ []) := by
  intro st
  unfold is_service_ready
  simp only [Bool.and_eq_true, decide_eq_true_eq, List.length_pos]
  exact and_assoc

/-! ## src/backend/app/services/plant_disease_rag.py : recommendation synthesizer -/

/-- JSON-like values: the loosely structured dict payloads passed between the
synthesizer, the parser and the caller. -/
inductive JVal where
  | str (s : String) : JVal
  | num (q : ℚ) : JVal
  | bool (b : Bool) : JVal
  | null : JVal
  | arr (l : List JVal) : JVal
  | obj (l : List (String × JVal)) : JVal

/-- A Python dict with string keys, modelled as an insertion-ordered
association list. -/
abbrev Dict := List (String × JVal)

/-- Python `d[k] = v`: replace in place when the key exists, else append. -/
def dictSet : Dict → String → JVal → Dict
  | [], k, v => [(k, v)]
  | (k0, v0) :: rest, k, v =>
    if k0 = k then (k0, v) :: rest else (k0, v0) :: dictSet rest k v

/-- Python `k in d`. -/
def dictHas (d : Dict) (k : String) : Bool :=
  (List.lookup k d).isSome

/-- Outcome of one `llm.chat(prompt, ...)` call: either the call raises, or it
returns a response dict with a truthy-or-not `success` flag, a `response`
string and an optional `model` name (absent keys modelled by the Bool and the
Option). -/
inductive ChatOutcome where
  | raises : ChatOutcome
  | returns (success : Bool) (response : String) (model : Option String) : ChatOutcome

/-- The generator backend: a function from prompt to outcome. -/
abbrev GenFn := String → ChatOutcome

/-- The semantics of `json.loads` restricted to the extracted brace block:
`none` models a JSONDecodeError.  A block that parses successfully starting
with a brace is always an object, hence the `Dict` payload. -/
abbrev JsonLoads := String → Option Dict

/-- A failed generator call: it raises, or its response dict has a falsy
`success`. -/
def chatFailed : ChatOutcome → Bool
  | ChatOutcome.raises => true
  | ChatOutcome.returns success _ _ => !success

/-- Python `crop_type or primary_match["crop"]`: the empty string and None are
falsy. -/
def pyOr (o : Option String) (dflt : String) : String :=
  match o with
  | some s => if s = "" then dflt else s
  | none => dflt

/-- The constant 7/10, the fixed confidence threshold of the synthesizer
(written as a raw fraction so that comparisons reduce). -/
def ratSevenTenths : ℚ := ⟨7, 10, by norm_num, by norm_num⟩

/-- Confidence wording used in the diseased prompt:
`"high" if primary_match["score"] > 0.7 else "medium"`. -/
def confidenceStr (score : WithBot ℚ) : String :=
  if ((ratSevenTenths : ℚ) : WithBot ℚ) < score then "high" else "medium"

/-- Python float formatting `f"{x:.2f}"` on the modelled scores: round the
rational to two decimal places (round half up on the model rationals; the
bit-exact decimal conversion of binary floats is not modelled) and render with
exactly two decimals.  The FAISS minus-infinity sentinel renders as `-inf`.
The arithmetic is done on numerator and denominator directly so that the
definition evaluates by kernel reduction. -/
def format2f (x : WithBot ℚ) : String :=
  match x with
  | Option.none => "-inf"
  | Option.some q =>
    let n : Int := (200 * q.num + (q.den : Int)).fdiv (2 * (q.den : Int))
    let m := n.natAbs
    (if n < 0 then "-" else "") ++ toString (m / 100) ++ "." ++
      (if m % 100 < 10 then "0" ++ toString (m % 100) else toString (m % 100))

/-- The `similar_cases` payload attached to recommendations: the top three
matches, each with a 2-decimal similarity string (lines 381-389, 659-666). -/
def similarCasesJson (ms : List SearchResult) : JVal :=
  JVal.arr ((ms.take 3).map (fun m => JVal.obj
    [("crop", JVal.str m.crop), ("condition", JVal.str m.condition),
     ("similarity", JVal.str (format2f m.score))]))

/-- The supporting-context sentences embedded in the prompts
(lines 310-314). -/
def similarCasesContext (ms : List SearchResult) : List String :=
  (ms.take 3).enum.map (fun p =>
    "Case " ++ toString (p.1 + 1) ++ ": " ++ p.2.crop ++ " with " ++
    p.2.condition ++ " (similarity: " ++ format2f p.2.score ++ ")")

/-- The no-match prompt of `get_treatment_recommendations` (lines 266-280);
literal braces of the Python f-string are escaped. -/
def noMatchPrompt (crop_type : Option String) : String :=
  "\n                No specific disease matches found for the plant image analysis.\n                Crop type: " ++
  pyOr crop_type "Unknown" ++
  "\n                \n                Please provide general plant health recommendations in JSON format:\n                \x7b\n                    \"primary_diagnosis\": \"Unable to identify specific disease\",\n                    \"confidence\": \"low\",\n                    \"recommendations\": [\"list of 3-5 treatment steps\"],\n                    \"preventive_measures\": [\"list of 3-5 prevention strategies\"],\n                    \"fertilizer_advice\": \"specific fertilizer recommendation\",\n                    \"urgency\": \"low/medium/high\"\n                \x7d\n                "

/-- The maintenance prompt for a healthy top match (lines 317-330). -/
def healthyPrompt (crop : String) (ctx : List String) : String :=
  "\n            Analysis shows a healthy " ++ crop ++
  " leaf with high confidence.\n            Similar healthy cases found:\n            " ++
  String.intercalate "\n" ctx ++
  "\n            \n            Please provide maintenance recommendations in JSON format:\n            \x7b\n                \"primary_diagnosis\": \"Healthy " ++
  crop ++
  " leaf\",\n                \"confidence\": \"high\",\n                \"recommendations\": [\"list of 3-5 maintenance practices\"],\n                \"preventive_measures\": [\"list of 3-5 disease prevention strategies\"],\n                \"fertilizer_advice\": \"specific fertilizer recommendation for healthy " ++
  crop ++
  "\",\n                \"urgency\": \"low\"\n            \x7d\n            "

/-- The treatment prompt for a diseased top match (lines 331-359). -/
def diseasedPrompt (crop condition conf : String) (ctx : List String) : String :=
  "\n            Plant disease diagnosis based on image analysis and database matching:\n            \n            Primary diagnosis: " ++
  crop ++ " - " ++ condition ++
  "\n            Confidence level: " ++ conf ++
  "\n            \n            Similar cases found in database:\n            " ++
  String.intercalate "\n" ctx ++
  "\n            \n            Please provide comprehensive treatment recommendations in JSON format:\n            \x7b\n                \"primary_diagnosis\": \"" ++
  crop ++ " - " ++ condition ++
  "\",\n                \"confidence\": \"" ++ conf ++
  "\",\n                \"recommendations\": [\"list of 4-6 specific treatment steps\"],\n                \"preventive_measures\": [\"list of 4-6 prevention strategies\"],\n                \"fertilizer_advice\": \"specific fertilizer recommendation for this condition\",\n                \"urgency\": \"low/medium/high based on disease severity\"\n            \x7d\n            \n            Consider:\n            - Immediate treatment actions\n            - Chemical/organic treatment options\n            - Environmental management\n            - Timing of treatments\n            - Safety precautions\n            - Follow-up monitoring\n            "

/-- Regex search `re.search(r"\{.*\}", llm_response, re.DOTALL)` of
`_parse_llm_recommendations`: with a greedy dot-all body, the match (when one
exists) runs from the first opening brace to the last closing brace after
it. -/
def extractJsonBlock (s : String) : Option String :=
  let cs := s.toList
  match cs.findIdx? (fun c => c = Char.ofNat 123) with
  | none => none
  | some i =>
    match cs.reverse.findIdx? (fun c => c = Char.ofNat 125) with
    | none => none
    | some rj =>
      let j := cs.length - 1 - rj
      if i < j then some (String.mk ((cs.drop i).take (j - i + 1))) else none

/-- The five required fields checked by `_parse_llm_recommendations`
(lines 566-568). -/
def requiredFields : List String :=
  ["primary_diagnosis", "confidence", "recommendations",
   "preventive_measures", "fertilizer_advice"]

/-- The placeholder inserted for an absent required field (line 572). -/
def notSpecified : String := "Not specified in LLM response"

/-- One iteration of the required-field loop (lines 570-572): insert the
placeholder when the field is absent. -/
def fillStep (acc : Dict) (f : String) : Dict :=
  if dictHas acc f then acc else dictSet acc f (JVal.str notSpecified)

/-- Trailing steps of the validation (lines 574-581): default `urgency` to
medium and retain the raw response under `llm_analysis` when absent. -/
def fillTail (d1 : Dict) (llm_response : String) : Dict :=
  let d2 := if dictHas d1 "urgency" then d1 else dictSet d1 "urgency" (JVal.str "medium")
  if dictHas d2 "llm_analysis" then d2
  else dictSet d2 "llm_analysis" (JVal.str llm_response)

/-- Field validation of `_parse_llm_recommendations` (lines 565-581): insert
the placeholder for each absent required field, default `urgency` to medium,
and retain the raw response under `llm_analysis` when absent. -/
def fillRequired (d : Dict) (llm_response : String) : Dict :=
  fillTail (requiredFields.foldl fillStep d) llm_response

/-- Python `text.split("\n")` on a character list (empty fields kept). -/
def splitOnCharList (c : Char) : List Char → List (List Char)
  | [] => [[]]
  | x :: rest =>
    if x = c then [] :: splitOnCharList c rest
    else
      match splitOnCharList c rest with
      | w :: ws => (x :: w) :: ws
      | [] => [[x]]

/-- Python `text.split("\n")`. -/
def splitLinesPy (s : String) : List String :=
  (splitOnCharList '\n' s.toList).map String.mk

/-- Keyword tables of the line classifier of `_structure_text_response`
(lines 612-625). -/
def sectionRecKeywords : List String := ["treatment", "recommend", "apply"]

def sectionPrevKeywords : List String := ["prevent", "avoid", "maintain"]

def fertilizerKeywords : List String := ["fertilizer", "nutrient", "npk"]

def urgencyKeywords : List String := ["urgent", "immediate", "critical"]

/-- Python `any(keyword in line.lower() for keyword in kws)`. -/
def containsAny (line : String) (kws : List String) : Bool :=
  kws.any (fun k => strContains (lowerStr line) k)

/-- Python `line.lstrip("- •*").strip()` applied to a bulleted line
(line 627). -/
def bulletStrip (line : String) : String :=
  pyStrip (String.mk (line.toList.dropWhile
    (fun c => c = '-' || c = ' ' || c = '•' || c = '*')))

/-- The two pseudo-sections of the line classifier. -/
inductive TextSection where
  | recommendations : TextSection
  | preventive : TextSection
deriving DecidableEq

/-- Running state of the line loop of `_structure_text_response`. -/
structure TextParseState where
  recommendations : List String
  preventive_measures : List String
  fertilizer_advice : String
  urgency : String
  current_section : Option TextSection
deriving DecidableEq

/-- Initial state of the line loop (lines 601-608). -/
def initialTextState : TextParseState :=
  { recommendations := [],
    preventive_measures := [],
    fertilizer_advice := "Apply balanced fertilizer as recommended",
    urgency := "medium",
    current_section := none }

/-- Per-line step of `_structure_text_response` (lines 610-634): strip the
line, skip when empty; keyword sniffing in the listed order (recommendation
keywords, prevention keywords, verbatim fertilizer capture, urgency
escalation) takes precedence over the bullet check, so a bulleted line that
contains any keyword acts as a header or capture instead of being appended. -/
def textStep (st : TextParseState) (rawLine : String) : TextParseState :=
  let line := pyStrip rawLine
  if line = "" then st
  else if containsAny line sectionRecKeywords then
    { st with current_section := some TextSection.recommendations }
  else if containsAny line sectionPrevKeywords then
    { st with current_section := some TextSection.preventive }
  else if containsAny line fertilizerKeywords then
    { st with fertilizer_advice := line, current_section := none }
  else if containsAny line urgencyKeywords then
    { st with urgency := "high", current_section := none }
  else if strStartsWith line "-" || strStartsWith line "•" || strStartsWith line "*" then
    match st.current_section with
    | some TextSection.recommendations =>
      { st with recommendations := st.recommendations ++ [bulletStrip line] }
    | some TextSection.preventive =>
      { st with preventive_measures := st.preventive_measures ++ [bulletStrip line] }
    | none => st
  else st

/-- Source `_structure_text_response` (lines 590-648): run the line loop, seed
empty lists with the generic defaults, cap both lists at 6 entries, and return
the fixed-shape record with the verbatim raw text under `llm_analysis`. -/
def structure_text_response (text_response : String) : Dict :=
  let stF := (splitLinesPy text_response).foldl textStep initialTextState
  let recommendations :=
    if stF.recommendations = [] then
      ["Follow agricultural best practices for the identified condition"]
    else stF.recommendations
  let preventive :=
    if stF.preventive_measures = [] then
      ["Maintain good plant hygiene", "Monitor plants regularly"]
    else stF.preventive_measures
  [("primary_diagnosis", JVal.str "AI analysis completed"),
   ("confidence", JVal.str "medium"),
   ("recommendations", JVal.arr ((recommendations.take 6).map JVal.str)),
   ("preventive_measures", JVal.arr ((preventive.take 6).map JVal.str)),
   ("fertilizer_advice", JVal.str stF.fertilizer_advice),
   ("urgency", JVal.str stF.urgency),
   ("llm_analysis", JVal.str text_response)]

/-- Source `_parse_llm_recommendations` (lines 542-588): extract the brace
block and parse it; on success validate the required fields, otherwise (no
block, or a decode error) fall back to line-based structuring. -/
def parse_llm_recommendations (jsonLoads : JsonLoads) (llm_response : String) : Dict :=
  match extractJsonBlock llm_response with
  | some json_str =>
    match jsonLoads json_str with
    | some d => fillRequired d llm_response
    | none => structure_text_response llm_response
  | none => structure_text_response llm_response

/-- Source `_get_fallback_recommendations` (lines 650-689). -/
def get_fallback_recommendations (crop condition : String)
    (disease_matches : List SearchResult) : Dict :=
  [("primary_diagnosis", JVal.str (crop ++ " - " ++ condition)),
   ("confidence", JVal.str "medium"),
   ("similar_cases", similarCasesJson disease_matches),
   ("recommendations", JVal.arr
     [JVal.str "Remove affected plant parts",
      JVal.str "Apply appropriate treatment based on disease type",
      JVal.str "Improve environmental conditions",
      JVal.str "Monitor plant closely for changes"]),
   ("preventive_measures", JVal.arr
     [JVal.str "Ensure proper plant spacing",
      JVal.str "Maintain good air circulation",
      JVal.str "Avoid overhead watering",
      JVal.str "Practice crop rotation"]),
   ("fertilizer_advice", JVal.str ("Apply balanced fertilizer suitable for " ++ crop)),
   ("urgency", JVal.str "medium"),
   ("llm_analysis", JVal.str "LLM analysis not available - using fallback recommendations")]

/-- The hard-coded no-match record of `get_treatment_recommendations`
(lines 293-301). -/
def noMatchFallback : Dict :=
  [("primary_diagnosis", JVal.str "Unable to identify specific disease"),
   ("confidence", JVal.str "low"),
   ("recommendations", JVal.arr [JVal.str "Consult with a local agricultural expert"]),
   ("preventive_measures", JVal.arr
     [JVal.str "Maintain good crop hygiene", JVal.str "Ensure proper spacing"]),
   ("fertilizer_advice", JVal.str "Use balanced NPK fertilizer as per soil test"),
   ("urgency", JVal.str "medium"),
   ("llm_analysis", JVal.str "LLM analysis not available")]

/-- No-evidence branch of `get_treatment_recommendations` (lines 264-301):
when a generator is present, send the no-match prompt; on success parse the
response (no similar_cases or model_used are attached on this path); on an
exception or an unsuccessful response fall back to the hard-coded no-match
record, which is also returned when no generator is available. -/
def treatmentNoEvidence (jsonLoads : JsonLoads) (llm : Option GenFn)
    (crop_type : Option String) : Dict :=
  match llm with
  | some g =>
    match g (noMatchPrompt crop_type) with
    | ChatOutcome.raises => noMatchFallback
    | ChatOutcome.returns success resp _ =>
      if success then parse_llm_recommendations jsonLoads resp
      else noMatchFallback
  | none => noMatchFallback

/-- Prompt selection of the evidence branch (lines 303-359): healthy top match
selects the maintenance prompt, otherwise the treatment prompt; `crop` is the
caller hint when truthy, else the top match crop. -/
def evidencePrompt (primary : SearchResult) (dm : List SearchResult)
    (crop_type : Option String) : String :=
  if primary.is_healthy then
    healthyPrompt (pyOr crop_type primary.crop) (similarCasesContext dm)
  else
    diseasedPrompt (pyOr crop_type primary.crop) primary.condition
      (confidenceStr primary.score) (similarCasesContext dm)

/-- Evidence branch of `get_treatment_recommendations` (lines 303-401): call
the generator on the selected prompt; on success parse the response and attach
`similar_cases` (top three) and `model_used` (`llm_response.get("model",
"unknown")`); on an exception or an unsuccessful response, and when no
generator is available, return `_get_fallback_recommendations`. -/
def treatmentWithEvidence (jsonLoads : JsonLoads) (llm : Option GenFn)
    (primary : SearchResult) (rest : List SearchResult)
    (crop_type : Option String) : Dict :=
  match llm with
  | some g =>
    match g (evidencePrompt primary (primary :: rest) crop_type) with
    | ChatOutcome.raises =>
      get_fallback_recommendations (pyOr crop_type primary.crop)
        primary.condition (primary :: rest)
    | ChatOutcome.returns success resp modelName =>
      if success then
        dictSet
          (dictSet (parse_llm_recommendations jsonLoads resp)
            "similar_cases" (similarCasesJson (primary :: rest)))
          "model_used" (JVal.str (modelName.getD "unknown"))
      else
        get_fallback_recommendations (pyOr crop_type primary.crop)
          primary.condition (primary :: rest)
  | none =>
    get_fallback_recommendations (pyOr crop_type primary.crop)
      primary.condition (primary :: rest)

/-- Source `get_treatment_recommendations` (lines 248-401; the duplicated
block after the first return of the fallback, lines 402-540, is dead code and
is not modelled).  The generator and the JSON parser are explicit parameters;
an exception from the chat call is caught and routed to the deterministic
fallback of the current evidence branch, as is an unsuccessful response. -/
def get_treatment_recommendations (jsonLoads : JsonLoads) (llm : Option GenFn)
    (disease_matches : List SearchResult) (crop_type : Option String) : Dict :=
  match disease_matches with
  | [] => treatmentNoEvidence jsonLoads llm crop_type
  | primary :: rest => treatmentWithEvidence jsonLoads llm primary rest crop_type

/-! ## Theorems about the recommendation synthesizer -/

theorem lookup_dictSet_self (d : Dict) (k : String) (v : JVal) :
    List.lookup k (dictSet d k v) = some v := by
  induction d with
  | nil => simp [dictSet, List.lookup]
  | cons kv rest ih =>
    obtain ⟨k0, v0⟩ := kv
    by_cases h : k0 = k
    · subst h
      simp [dictSet, List.lookup]
    · have hb : (k == k0) = false := by
        rw [beq_eq_false_iff_ne]
        exact fun he => h he.symm
      simp only [dictSet, if_neg h, List.lookup, hb]
      exact ih

theorem lookup_dictSet_ne (d : Dict) (k k0 : String) (v : JVal) (h : k0 ≠ k) :
    List.lookup k0 (dictSet d k v) = List.lookup k0 d := by
  induction d with
  | nil =>
    have hb : (k0 == k) = false := beq_eq_false_iff_ne.2 h
    simp [dictSet, List.lookup, hb]
  | cons kv rest ih =>
    obtain ⟨k1, v1⟩ := kv
    by_cases h1 : k1 = k
    · subst h1
      have hb : (k0 == k1) = false := beq_eq_false_iff_ne.2 h
      simp [dictSet, List.lookup, hb]
    · simp only [dictSet, if_neg h1, List.lookup]
      cases hb : (k0 == k1) with
      | true => rfl
      | false => exact ih

theorem lookup_fillFold_not_mem (fields : List String) (acc : Dict) (f : String)
    (h : f ∉ fields) :
    List.lookup f (fields.foldl fillStep acc) = List.lookup f acc := by
  induction fields generalizing acc with
  | nil => rfl
  | cons x fs ih =>
    have hx : f ≠ x := fun he => h (he ▸ List.mem_cons_self x fs)
    have hfs : f ∉ fs := fun hm => h (List.mem_cons_of_mem _ hm)
    rw [List.foldl_cons, ih _ hfs]
    unfold fillStep
    by_cases hh : dictHas acc x
    · rw [if_pos hh]
    · rw [if_neg hh, lookup_dictSet_ne acc x f _ hx]

theorem lookup_fillFold_mem (fields : List String) (acc : Dict) (f : String)
    (hmem : f ∈ fields) (hnd : fields.Nodup)
    (habs : List.lookup f acc = none) :
    List.lookup f (fields.foldl fillStep acc) = some (JVal.str notSpecified) := by
  induction fields generalizing acc with
  | nil => cases hmem
  | cons x fs ih =>
    rw [List.foldl_cons]
    rcases List.mem_cons.1 hmem with rfl | hmem2
    · have hnot : f ∉ fs := (List.nodup_cons.1 hnd).1
      rw [lookup_fillFold_not_mem fs _ f hnot]
      unfold fillStep
      rw [if_neg (by simp [dictHas, habs]), lookup_dictSet_self]
    · have hxf : f ≠ x := fun he => (List.nodup_cons.1 hnd).1 (he ▸ hmem2)
      have habs2 : List.lookup f (fillStep acc x) = none := by
        unfold fillStep
        by_cases hh : dictHas acc x
        · rw [if_pos hh]
          exact habs
        · rw [if_neg hh, lookup_dictSet_ne acc x f _ hxf]
          exact habs
      exact ih _ hmem2 (List.nodup_cons.1 hnd).2 habs2

theorem lookup_fillTail_ne (d1 : Dict) (resp : String) (f : String)
    (hu : f ≠ "urgency") (hl : f ≠ "llm_analysis") :
    List.lookup f (fillTail d1 resp) = List.lookup f d1 := by
  unfold fillTail
  by_cases h2 : dictHas d1 "urgency"
  · rw [if_pos h2]
    by_cases h3 : dictHas d1 "llm_analysis"
    · rw [if_pos h3]
    · rw [if_neg h3, lookup_dictSet_ne _ _ _ _ hl]
  · rw [if_neg h2]
    by_cases h3 : dictHas (dictSet d1 "urgency" (JVal.str "medium")) "llm_analysis"
    · rw [if_pos h3, lookup_dictSet_ne _ _ _ _ hu]
    · rw [if_neg h3, lookup_dictSet_ne _ _ _ _ hl, lookup_dictSet_ne _ _ _ _ hu]

theorem lookup_fillTail_urgency (d1 : Dict) (resp : String)
    (h : List.lookup "urgency" d1 = none) :
    List.lookup "urgency" (fillTail d1 resp) = some (JVal.str "medium") := by
  unfold fillTail
  have hnu : ¬ (dictHas d1 "urgency" = true) := by
    simp [dictHas, h]
  rw [if_neg hnu]
  have hset : List.lookup "urgency" (dictSet d1 "urgency" (JVal.str "medium")) =
      some (JVal.str "medium") := lookup_dictSet_self _ _ _
  by_cases h3 : dictHas (dictSet d1 "urgency" (JVal.str "medium")) "llm_analysis" = true
  · rw [if_pos h3]
    exact hset
  · rw [if_neg h3, lookup_dictSet_ne _ _ _ _ (by decide)]
    exact hset

theorem lookup_fillTail_llm (d1 : Dict) (resp : String)
    (h : List.lookup "llm_analysis" d1 = none) :
    List.lookup "llm_analysis" (fillTail d1 resp) = some (JVal.str resp) := by
  unfold fillTail
  by_cases h2 : dictHas d1 "urgency" = true
  · rw [if_pos h2]
    have hna : ¬ (dictHas d1 "llm_analysis" = true) := by
      simp [dictHas, h]
    rw [if_neg hna, lookup_dictSet_self]
  · rw [if_neg h2]
    have hpres : List.lookup "llm_analysis" (dictSet d1 "urgency" (JVal.str "medium")) =
        none := by
      rw [lookup_dictSet_ne _ _ _ _ (by decide)]
      exact h
    have hna : ¬ (dictHas (dictSet d1 "urgency" (JVal.str "medium")) "llm_analysis" = true) := by
      simp [dictHas, hpres]
    rw [if_neg hna, lookup_dictSet_self]

/-- Claim C6: when structured JSON parsing of the generator response succeeds,
each absent required field (primary_diagnosis, confidence, recommendations,
preventive_measures, fertilizer_advice) is filled with the literal placeholder
string "Not specified in LLM response" (the same bare string is used for the
list-valued fields); an absent urgency defaults to "medium"; and the full raw
response text is retained under llm_analysis when that key is absent. -/
theorem parse_llm_json_fill_defaults :
    ∀ (jsonLoads : JsonLoads) (resp js : String) (d : Dict),
      extractJsonBlock resp = some js →
      jsonLoads js = some d →
      (∀ f ∈ requiredFields, List.lookup f d = none →
        List.lookup f (parse_llm_recommendations jsonLoads resp) =
          some (JVal.str notSpecified)) ∧
      (List.lookup "urgency" d = none →
        List.lookup "urgency" (parse_llm_recommendations jsonLoads resp) =
          some (JVal.str "medium")) ∧
      (List.lookup "llm_analysis" d = none →
        List.lookup "llm_analysis" (parse_llm_recommendations jsonLoads resp) =
          some (JVal.str resp)) := by
  intro jl resp js d hx hl
  have hp : parse_llm_recommendations jl resp = fillRequired d resp := by
    unfold parse_llm_recommendations
    simp only [hx, hl]
  rw [hp]
  unfold fillRequired
  refine ⟨?_, ?_, ?_⟩
  · intro f hf habs
    have hfu : f ≠ "urgency" ∧ f ≠ "llm_analysis" := by
      fin_cases hf <;> exact ⟨by decide, by decide⟩
    rw [lookup_fillTail_ne _ _ _ hfu.1 hfu.2]
    exact lookup_fillFold_mem requiredFields d f hf (by decide) habs
  · intro habs
    have h1 : List.lookup "urgency" (requiredFields.foldl fillStep d) = none := by
      rw [lookup_fillFold_not_mem _ _ _ (by decide)]
      exact habs
    exact lookup_fillTail_urgency _ _ h1
  · intro habs
    have h1 : List.lookup "llm_analysis" (requiredFields.foldl fillStep d) = none := by
      rw [lookup_fillFold_not_mem _ _ _ (by decide)]
      exact habs
    exact lookup_fillTail_llm _ _ h1

/-- Witness for claim C6: parsing the response `{}` (empty JSON object) fills
urgency with "medium", a required field with the placeholder, and retains the
raw text. -/
theorem parse_llm_json_fill_defaults_witness :
    List.lookup "urgency" (parse_llm_recommendations
        (fun s => if s = "\x7b\x7d" then some [] else none) "\x7b\x7d") =
      some (JVal.str "medium") ∧
    List.lookup "recommendations" (parse_llm_recommendations
        (fun s => if s = "\x7b\x7d" then some [] else none) "\x7b\x7d") =
      some (JVal.str notSpecified) ∧
    List.lookup "llm_analysis" (parse_llm_recommendations
        (fun s => if s = "\x7b\x7d" then some [] else none) "\x7b\x7d") =
      some (JVal.str "\x7b\x7d") := by
  have h := parse_llm_json_fill_defaults
    (fun s => if s = "\x7b\x7d" then some [] else none) "\x7b\x7d" "\x7b\x7d" []
    rfl rfl
  exact ⟨h.2.1 rfl, h.1 "recommendations" (by decide) rfl, h.2.2 rfl⟩

/-- Helper: with a generator whose every call fails (raises or reports an
unsuccessful response), the synthesizer produces exactly the output of the
generator-unavailable branch, independently of the JSON parser. -/
theorem get_treatment_failing_gen (jl jl2 : JsonLoads) (g : GenFn)
    (hg : ∀ p, chatFailed (g p) = true)
    (ms : List SearchResult) (ct : Option String) :
    get_treatment_recommendations jl (some g) ms ct =
      get_treatment_recommendations jl2 none ms ct := by
  cases ms with
  | nil =>
    show treatmentNoEvidence jl (some g) ct = treatmentNoEvidence jl2 none ct
    simp only [treatmentNoEvidence]
    cases hgo : g (noMatchPrompt ct) with
    | raises => rfl
    | returns success resp mo =>
      have hf := hg (noMatchPrompt ct)
      rw [hgo] at hf
      simp only [chatFailed, Bool.not_eq_true'] at hf
      rw [hf]
      rfl
  | cons primary rest =>
    show treatmentWithEvidence jl (some g) primary rest ct =
      treatmentWithEvidence jl2 none primary rest ct
    simp only [treatmentWithEvidence]
    cases hgo : g (evidencePrompt primary (primary :: rest) ct) with
    | raises => rfl
    | returns success resp mo =>
      have hf := hg (evidencePrompt primary (primary :: rest) ct)
      rw [hgo] at hf
      simp only [chatFailed, Bool.not_eq_true'] at hf
      rw [hf]
      rfl

/-- Claim C4: for every evidence list and every generator that raises on every
call (or returns an unsuccessful response), the synthesizer catches the
failure, never propagates it (the embedded function is total and equals the
deterministic fallback of the current evidence branch, i.e. the output of the
generator-unavailable branch), and its output does not depend on which failing
generator stub or which JSON parser is supplied, so repeated calls with a
fixed evidence list produce identical output. -/
theorem generator_failure_deterministic_fallback :
    ∀ (jl jl2 : JsonLoads) (g g2 : GenFn) (ms : List SearchResult)
      (ct : Option String),
      (∀ p, chatFailed (g p) = true) →
      (∀ p, chatFailed (g2 p) = true) →
      get_treatment_recommendations jl (some g) ms ct =
        get_treatment_recommendations jl2 (some g2) ms ct ∧
      get_treatment_recommendations jl (some g) ms ct =
        get_treatment_recommendations jl none ms ct := by
  intro jl jl2 g g2 ms ct hg hg2
  constructor
  · rw [get_treatment_failing_gen jl jl g hg ms ct,
        get_treatment_failing_gen jl2 jl g2 hg2 ms ct]
  · exact get_treatment_failing_gen jl jl g hg ms ct

/-- Witness for claim C4: an always-raising stub and an always-unsuccessful
stub produce the same record as the generator-unavailable branch on a fixed
one-element evidence list. -/
theorem generator_failure_deterministic_fallback_witness :
    get_treatment_recommendations (fun _ => none)
        (some (fun _ => ChatOutcome.raises))
        [{ score := Option.some (0 : ℚ), crop := "Rice", condition := "Brown spot",
           is_healthy := false, class_name := "Rice - Brown spot",
           image_path := "img.jpg", text := "t", metadata_id := 0 }] none =
      get_treatment_recommendations (fun _ => some [])
        (some (fun _ => ChatOutcome.returns false "oops" none))
        [{ score := Option.some (0 : ℚ), crop := "Rice", condition := "Brown spot",
           is_healthy := false, class_name := "Rice - Brown spot",
           image_path := "img.jpg", text := "t", metadata_id := 0 }] none :=
  (generator_failure_deterministic_fallback (fun _ => none) (fun _ => some [])
    (fun _ => ChatOutcome.raises) (fun _ => ChatOutcome.returns false "oops" none)
    [{ score := Option.some (0 : ℚ), crop := "Rice", condition := "Brown spot",
       is_healthy := false, class_name := "Rice - Brown spot",
       image_path := "img.jpg", text := "t", metadata_id := 0 }] none
    (fun _ => rfl) (fun _ => rfl)).1

theorem append_ne_empty_left (s t : String) (h : 0 < s.length) : s ++ t ≠ "" := by
  intro he
  have h2 := congrArg String.length he
  have h0 : ("" : String).length = 0 := rfl
  rw [String.length_append, h0] at h2
  omega

theorem diagName_ne_empty (a b : String) : a ++ " - " ++ b ≠ "" := by
  apply append_ne_empty_left
  rw [String.length_append]
  have h3 : (" - " : String).length = 3 := rfl
  omega

/-- Claim C3 counterexample: the record is not always fully populated.  On the
no-evidence path with no generator, the hard fallback contains neither
`model_used` nor `similar_cases`; and on the successful-generator path, a
generator response whose JSON explicitly carries an empty list is passed
through, so `recommendations` can have length 0. -/
theorem treatment_record_completeness_counterexample :
    List.lookup "model_used"
      (get_treatment_recommendations (fun _ => none) none [] none) = none ∧
    List.lookup "similar_cases"
      (get_treatment_recommendations (fun _ => none) none [] none) = none ∧
    List.lookup "recommendations"
      (get_treatment_recommendations
        (fun s => if s = "\x7b\"recommendations\": []\x7d" then
            some [("recommendations", JVal.arr [])] else none)
        (some (fun _ => ChatOutcome.returns true
            "\x7b\"recommendations\": []\x7d" (some "gemini")))
        [{ score := Option.some (0 : ℚ), crop := "Rice", condition := "Brown spot",
           is_healthy := false, class_name := "Rice - Brown spot",
           image_path := "img.jpg", text := "t", metadata_id := 0 }] none) =
      some (JVal.arr []) :=
  ⟨rfl, rfl, rfl⟩

/-- Claim C3 (amended): on every path on which the generator is unavailable,
raises, or returns an unsuccessful response, the returned record carries the
seven fields primary_diagnosis, confidence, recommendations,
preventive_measures, fertilizer_advice, urgency and llm_analysis, all
non-empty and with list fields of length at least 1; when the evidence list is
non-empty it additionally carries similar_cases with at least one entry; and
model_used is absent on these fallback paths (it is only attached on the
successful-generator path with evidence, where field content depends on
generator output). -/
theorem treatment_fallback_field_completeness :
    ∀ (jl : JsonLoads) (llm : Option GenFn) (ms : List SearchResult)
      (ct : Option String),
      (llm = none ∨ ∃ g, llm = some g ∧ ∀ p, chatFailed (g p) = true) →
      (∃ s, List.lookup "primary_diagnosis"
        (get_treatment_recommendations jl llm ms ct) = some (JVal.str s) ∧ s ≠ "") ∧
      (∃ s, List.lookup "confidence"
        (get_treatment_recommendations jl llm ms ct) = some (JVal.str s) ∧ s ≠ "") ∧
      (∃ l, List.lookup "recommendations"
        (get_treatment_recommendations jl llm ms ct) = some (JVal.arr l) ∧ 0 < l.length) ∧
      (∃ l, List.lookup "preventive_measures"
        (get_treatment_recommendations jl llm ms ct) = some (JVal.arr l) ∧ 0 < l.length) ∧
      (∃ s, List.lookup "fertilizer_advice"
        (get_treatment_recommendations jl llm ms ct) = some (JVal.str s) ∧ s ≠ "") ∧
      (∃ s, List.lookup "urgency"
        (get_treatment_recommendations jl llm ms ct) = some (JVal.str s) ∧ s ≠ "") ∧
      (∃ s, List.lookup "llm_analysis"
        (get_treatment_recommendations jl llm ms ct) = some (JVal.str s) ∧ s ≠ "") ∧
      (ms ≠ [] → ∃ l, List.lookup "similar_cases"
        (get_treatment_recommendations jl llm ms ct) = some (JVal.arr l) ∧ 0 < l.length) ∧
      List.lookup "model_used" (get_treatment_recommendations jl llm ms ct) = none := by
  intro jl llm ms ct h
  have hred : get_treatment_recommendations jl llm ms ct =
      get_treatment_recommendations jl none ms ct := by
    rcases h with rfl | ⟨g, rfl, hg⟩
    · rfl
    · exact get_treatment_failing_gen jl jl g hg ms ct
  rw [hred]
  cases ms with
  | nil =>
    exact ⟨⟨_, rfl, by decide⟩, ⟨_, rfl, by decide⟩, ⟨_, rfl, by decide⟩,
      ⟨_, rfl, by decide⟩, ⟨_, rfl, by decide⟩, ⟨_, rfl, by decide⟩,
      ⟨_, rfl, by decide⟩, fun hne => absurd rfl hne, rfl⟩
  | cons primary rest =>
    refine ⟨⟨_, rfl, diagName_ne_empty _ _⟩, ⟨_, rfl, by decide⟩,
      ⟨_, rfl, by decide⟩, ⟨_, rfl, by decide⟩,
      ⟨_, rfl, append_ne_empty_left _ _ (by decide)⟩,
      ⟨_, rfl, by decide⟩, ⟨_, rfl, by decide⟩, fun _ => ⟨_, rfl, ?_⟩, rfl⟩
    rw [List.length_map, List.length_take, List.length_cons]
    exact Nat.lt_min.2 ⟨by decide, by omega⟩

/-- Witness for the amended claim C3 on a fixed one-element evidence list and
an always-raising generator stub. -/
theorem treatment_fallback_field_completeness_witness :
    List.lookup "model_used"
      (get_treatment_recommendations (fun _ => none)
        (some (fun _ => ChatOutcome.raises))
        [{ score := Option.some (0 : ℚ), crop := "Rice", condition := "Brown spot",
           is_healthy := false, class_name := "Rice - Brown spot",
           image_path := "img.jpg", text := "t", metadata_id := 0 }] none) = none :=
  (treatment_fallback_field_completeness (fun _ => none)
    (some (fun _ => ChatOutcome.raises))
    [{ score := Option.some (0 : ℚ), crop := "Rice", condition := "Brown spot",
       is_healthy := false, class_name := "Rice - Brown spot",
       image_path := "img.jpg", text := "t", metadata_id := 0 }] none
    (Or.inr ⟨_, rfl, fun _ => rfl⟩)).2.2.2.2.2.2.2.2

/-- Claim C7 counterexample: on the empty string the fallback seeds
preventive_measures with TWO generic sentences, not one; and a bulleted line
containing a section keyword (here `apply` in `- apply mulch`) under an active
preventive section is treated as a section header instead of being stripped
and appended, so the preventive list stays empty and is seeded with the two
defaults. -/
theorem structure_text_response_counterexample :
    List.lookup "preventive_measures" (structure_text_response "") =
      some (JVal.arr [JVal.str "Maintain good plant hygiene",
                      JVal.str "Monitor plants regularly"]) ∧
    List.lookup "preventive_measures"
        (structure_text_response "Prevention:\n- apply mulch") =
      some (JVal.arr [JVal.str "Maintain good plant hygiene",
                      JVal.str "Monitor plants regularly"]) :=
  ⟨rfl, rfl⟩

/-- Claim C7 (amended): in the line-based fallback, for every input text the
result has primary_diagnosis "AI analysis completed", confidence "medium",
llm_analysis equal to the verbatim raw text, and both lists populated with
between 1 and 6 entries (capped at 6); a bulleted line containing none of the
section, fertilizer or urgency keywords and processed under an active section
is stripped of its bullet and appended to that section (a keyword-bearing
bullet instead switches section or captures a field); when no bullets were
captured, recommendations is seeded with one generic sentence and
preventive_measures with two; the fallback is total, so it never raises,
including on the empty string. -/
theorem structure_text_response_properties :
    (∀ text : String,
      List.lookup "primary_diagnosis" (structure_text_response text) =
        some (JVal.str "AI analysis completed") ∧
      List.lookup "confidence" (structure_text_response text) =
        some (JVal.str "medium") ∧
      List.lookup "llm_analysis" (structure_text_response text) =
        some (JVal.str text) ∧
      (∃ l, List.lookup "recommendations" (structure_text_response text) =
        some (JVal.arr l) ∧ 0 < l.length ∧ l.length ≤ 6) ∧
      (∃ l, List.lookup "preventive_measures" (structure_text_response text) =
        some (JVal.arr l) ∧ 0 < l.length ∧ l.length ≤ 6)) ∧
    (∀ (st : TextParseState) (line : String),
      pyStrip line ≠ "" →
      containsAny (pyStrip line) sectionRecKeywords = false →
      containsAny (pyStrip line) sectionPrevKeywords = false →
      containsAny (pyStrip line) fertilizerKeywords = false →
      containsAny (pyStrip line) urgencyKeywords = false →
      (strStartsWith (pyStrip line) "-" || strStartsWith (pyStrip line) "•" ||
        strStartsWith (pyStrip line) "*") = true →
      (st.current_section = some TextSection.recommendations →
        textStep st line = { st with recommendations :=
          st.recommendations ++ [bulletStrip (pyStrip line)] }) ∧
      (st.current_section = some TextSection.preventive →
        textStep st line = { st with preventive_measures :=
          st.preventive_measures ++ [bulletStrip (pyStrip line)] })) ∧
    (∀ text : String,
      ((splitLinesPy text).foldl textStep initialTextState).recommendations = [] →
      List.lookup "recommendations" (structure_text_response text) =
        some (JVal.arr
          [JVal.str "Follow agricultural best practices for the identified condition"])) ∧
    (∀ text : String,
      ((splitLinesPy text).foldl textStep initialTextState).preventive_measures = [] →
      List.lookup "preventive_measures" (structure_text_response text) =
        some (JVal.arr [JVal.str "Maintain good plant hygiene",
                        JVal.str "Monitor plants regularly"])) := by
  refine ⟨?_, ?_, ?_, ?_⟩
  · intro text
    refine ⟨rfl, rfl, rfl, ⟨_, rfl, ?_, ?_⟩, ⟨_, rfl, ?_, ?_⟩⟩
    · rw [List.length_map, List.length_take]
      refine Nat.lt_min.2 ⟨by decide, ?_⟩
      by_cases h : ((splitLinesPy text).foldl textStep initialTextState).recommendations = []
      · rw [if_pos h]
        decide
      · rw [if_neg h]
        exact List.length_pos.2 h
    · rw [List.length_map, List.length_take]
      exact min_le_left _ _
    · rw [List.length_map, List.length_take]
      refine Nat.lt_min.2 ⟨by decide, ?_⟩
      by_cases h : ((splitLinesPy text).foldl textStep initialTextState).preventive_measures = []
      · rw [if_pos h]
        decide
      · rw [if_neg h]
        exact List.length_pos.2 h
    · rw [List.length_map, List.length_take]
      exact min_le_left _ _
  · intro st line h1 h2 h3 h4 h5 h6
    have n2 : ¬ (containsAny (pyStrip line) sectionRecKeywords = true) := by
      rw [h2]
      exact Bool.false_ne_true
    have n3 : ¬ (containsAny (pyStrip line) sectionPrevKeywords = true) := by
      rw [h3]
      exact Bool.false_ne_true
    have n4 : ¬ (containsAny (pyStrip line) fertilizerKeywords = true) := by
      rw [h4]
      exact Bool.false_ne_true
    have n5 : ¬ (containsAny (pyStrip line) urgencyKeywords = true) := by
      rw [h5]
      exact Bool.false_ne_true
    constructor
    · intro hsec
      unfold textStep
      rw [if_neg h1, if_neg n2, if_neg n3, if_neg n4, if_neg n5, if_pos h6, hsec]
    · intro hsec
      unfold textStep
      rw [if_neg h1, if_neg n2, if_neg n3, if_neg n4, if_neg n5, if_pos h6, hsec]
  · intro text h
    simp only [structure_text_response, h]
    rfl
  · intro text h
    simp only [structure_text_response, h]
    rfl

/-- Witness for the amended claim C7: one concrete keyword-free bulleted line
is appended bullet-stripped to the active recommendations section. -/
theorem structure_text_response_properties_witness :
    textStep
      { recommendations := [], preventive_measures := [],
        fertilizer_advice := "Apply balanced fertilizer as recommended",
        urgency := "medium",
        current_section := some TextSection.recommendations }
      "- water the plant daily" =
    { recommendations := ["water the plant daily"], preventive_measures := [],
      fertilizer_advice := "Apply balanced fertilizer as recommended",
      urgency := "medium",
      current_section := some TextSection.recommendations } :=
  (structure_text_response_properties.2.1
    { recommendations := [], preventive_measures := [],
      fertilizer_advice := "Apply balanced fertilizer as recommended",
      urgency := "medium",
      current_section := some TextSection.recommendations }
    "- water the plant daily"
    (by decide) (by decide) (by decide) (by decide) (by decide) (by decide)).1 rfl
